import Mathlib

/-!
Verification development for the `ba_gpt_next` interview agent.

This file gives a shallow embedding, in Lean 4, of the core interview
orchestration and specification convergence engine of the repository
(`src/ba_interview_agent/interview_agent.py` and
`src/ba_interview_agent/spec_review_agent.py`), together with proofs of the
behavioural properties claimed by the specification.

Python strings are modelled by Lean `String` (a list of unicode scalar
values, matching Python's code-point view), Python `dict`/`list` JSON
payloads by an inductive `Json` type, and the standard-library
`json.loads` by an executable recursive-descent parser over the JSON
sublanguage relevant to the program.  Exceptions are modelled with
`Except`; stateful methods become explicit state-passing functions.
-/

set_option maxHeartbeats 1600000
set_option maxRecDepth 16384

namespace BA

/-! ## Python string primitives -/

/-- Whitespace test used by Python's `str.strip` family (modelled by the
core whitespace characters space, tab, newline, carriage return). -/
def isPySpace (c : Char) : Bool := c.isWhitespace

/-- Python `str.rstrip()` on a character list. -/
def rstripChars (l : List Char) : List Char :=
  (l.reverse.dropWhile isPySpace).reverse

/-- Python `str.lstrip()` on a character list. -/
def lstripChars (l : List Char) : List Char :=
  l.dropWhile isPySpace

/-- Python `str.strip()` on a character list. -/
def stripChars (l : List Char) : List Char :=
  rstripChars (lstripChars l)

/-- Python `s.strip()`. -/
def pyStrip (s : String) : String := ⟨stripChars s.data⟩

/-- Python `s.lstrip()`. -/
def pyLstrip (s : String) : String := ⟨lstripChars s.data⟩

/-- Python `s.rstrip()`. -/
def pyRstrip (s : String) : String := ⟨rstripChars s.data⟩

/-- Python slice `s[:n]`. -/
def pyTake (s : String) (n : Nat) : String := ⟨s.data.take n⟩

/-- Python slice `s[a:b]`. -/
def pySlice (s : String) (a b : Nat) : String := ⟨(s.data.take b).drop a⟩

/-- Python `s.find(c)` for a single-character needle (first index or `None`,
with Python's `-1` modelled as `none`). -/
def pyFindChar (s : String) (c : Char) : Option Nat :=
  s.data.findIdx? (· = c)

/-- Python `s.rfind(c)` for a single-character needle. -/
def pyRfindChar (s : String) (c : Char) : Option Nat :=
  match s.data.reverse.findIdx? (· = c) with
  | some i => some (s.data.length - 1 - i)
  | none => none

/-- One replacement pass of Python `s.replace(old, new)` over the
character list, fuelled for structural recursion (the fuel passed by
`pyReplace` always suffices for the non-empty patterns the program
uses). -/
def replaceChars : Nat → List Char → List Char → List Char → List Char
  | 0, _, _, l => l
  | fuel + 1, pat, rep, l =>
      if pat ≠ [] ∧ pat.isPrefixOf l then
        rep ++ replaceChars fuel pat rep (l.drop pat.length)
      else
        match l with
        | [] => []
        | c :: rest => c :: replaceChars fuel pat rep rest

/-- Python `s.replace(old, new)` (left-to-right, non-overlapping). -/
def pyReplace (s old new : String) : String :=
  ⟨replaceChars (s.data.length + 1) old.data new.data s.data⟩

/-- Python `s.split(sep)` for a one-character separator. -/
def splitOnChar (sep : Char) : List Char → List (List Char)
  | [] => [[]]
  | c :: rest =>
      let r := splitOnChar sep rest
      if c = sep then [] :: r
      else
        match r with
        | head :: tail => (c :: head) :: tail
        | [] => [[c]]

/-- Python `s.split(";")`. -/
def pySplitSemicolon (s : String) : List String :=
  (splitOnChar ';' s.data).map fun chars => ⟨chars⟩

/-- Lexicographic comparison of character lists by code point (the
ordering Python uses on `str`). -/
def ltChars : List Char → List Char → Bool
  | [], [] => false
  | [], _ :: _ => true
  | _ :: _, [] => false
  | a :: as, b :: bs =>
      if a < b then true else if b < a then false else ltChars as bs

/-- Python `a < b` on strings. -/
def pyStrLt (a b : String) : Bool := ltChars a.data b.data

/-- The character `"`. -/
def quoteChar : Char := Char.ofNat 34

/-- The character `\`. -/
def backslashChar : Char := Char.ofNat 92

/-- The character `\x7b`. -/
def lbraceChar : Char := Char.ofNat 123

/-- The character `\x7d`. -/
def rbraceChar : Char := Char.ofNat 125

/-! ## JSON values (`dict` / `list` payloads produced by `json.loads`) -/

/-- A JSON value as produced by Python's `json.loads`.  Integral numbers
are carried exactly; other numeric literals keep their source text. -/
inductive Json where
  | null
  | bool (b : Bool)
  | num (n : Int)
  | floatLit (lit : String)
  | str (s : String)
  | arr (elems : List Json)
  | obj (fields : List (String × Json))

/-- Model of `dict.get(key)`: Python dictionaries keep the last binding for a
repeated key, so lookup scans the reversed field list. -/
def Json.get (j : Json) (key : String) : Option Json :=
  match j with
  | .obj fields =>
      match fields.reverse.find? (fun kv => kv.1 = key) with
      | some kv => some kv.2
      | none => none
  | _ => none

/-- Python `repr` of a decoded JSON value, fuelled so the definition is
structurally recursive; `sizeOf` always dominates the nesting depth, so
the zero-fuel branch is unreachable from `pyReprAux`. -/
def pyReprFuel : Nat → Json → String
  | 0, _ => ""
  | fuel + 1, v =>
      match v with
      | .null => "None"
      | .bool true => "True"
      | .bool false => "False"
      | .num n => toString n
      | .floatLit lit => lit
      | .str s => "'" ++ s ++ "'"
      | .arr elems =>
          "[" ++ String.intercalate ", " (elems.map (pyReprFuel fuel)) ++ "]"
      | .obj fields =>
          String.singleton lbraceChar ++
            String.intercalate ", "
              (fields.map fun kv => "'" ++ kv.1 ++ "': " ++ pyReprFuel fuel kv.2)
            ++ String.singleton rbraceChar

mutual

/-- Structural weight of a JSON value (dominates its nesting depth). -/
def Json.weight : Json → Nat
  | .null => 1
  | .bool _ => 1
  | .num _ => 1
  | .floatLit _ => 1
  | .str _ => 1
  | .arr elems => 1 + Json.weightList elems
  | .obj fields => 1 + Json.weightFields fields

/-- Total weight of a list of JSON values. -/
def Json.weightList : List Json → Nat
  | [] => 0
  | v :: rest => Json.weight v + Json.weightList rest

/-- Total weight of a list of JSON object fields. -/
def Json.weightFields : List (String × Json) → Nat
  | [] => 0
  | kv :: rest => Json.weight kv.2 + Json.weightFields rest

end

/-- Python `repr` of a decoded JSON value (used by `str` on containers). -/
def pyReprAux (v : Json) : String := pyReprFuel v.weight v

/-- Python `str(value)` applied to a decoded JSON value. -/
def pyStrAny : Json → String
  | .str s => s
  | v => pyReprAux v

/-- Python truthiness `bool(value)` of a decoded JSON value. -/
def pyTruthy : Json → Bool
  | .null => false
  | .bool b => b
  | .num n => n != 0
  | .floatLit lit => lit != "0.0"
  | .str s => s != ""
  | .arr elems => !elems.isEmpty
  | .obj fields => !fields.isEmpty

/-! ## A `json.loads` model

A recursive-descent parser for the JSON sublanguage the program relies on
(objects, arrays, strings with standard escapes, integers, simple float
literals, `true` / `false` / `null`).  The fuel argument bounds the
recursion; the top-level wrapper passes enough fuel for any input of the
given length, and the parser is structurally recursive so that concrete
runs compute by `decide` / `rfl`. -/

/-- Digit test. -/
def isJsonDigit (c : Char) : Bool := c.isDigit

/-- Hex digit value. -/
def hexVal (c : Char) : Option Nat :=
  if c.isDigit then some (c.toNat - 48)
  else if 97 ≤ c.toNat ∧ c.toNat ≤ 102 then some (c.toNat - 87)
  else if 65 ≤ c.toNat ∧ c.toNat ≤ 70 then some (c.toNat - 55)
  else none

/-- Skip JSON whitespace. -/
def skipWs (l : List Char) : List Char := l.dropWhile isPySpace

/-- Parse the body of a JSON string after the opening quote; returns the
decoded characters and the input following the closing quote. -/
def parseStringBody : Nat → List Char → Option (List Char × List Char)
  | 0, _ => none
  | _ + 1, [] => none
  | fuel + 1, c :: rest =>
      if c = quoteChar then some ([], rest)
      else if c = backslashChar then
        match rest with
        | [] => none
        | e :: rest2 =>
            if e = quoteChar then
              (parseStringBody fuel rest2).map fun p => (quoteChar :: p.1, p.2)
            else if e = backslashChar then
              (parseStringBody fuel rest2).map fun p =>
                (backslashChar :: p.1, p.2)
            else if e = '/' then
              (parseStringBody fuel rest2).map fun p => ('/' :: p.1, p.2)
            else if e = 'b' then
              (parseStringBody fuel rest2).map fun p =>
                (Char.ofNat 8 :: p.1, p.2)
            else if e = 'f' then
              (parseStringBody fuel rest2).map fun p =>
                (Char.ofNat 12 :: p.1, p.2)
            else if e = 'n' then
              (parseStringBody fuel rest2).map fun p => ('\n' :: p.1, p.2)
            else if e = 'r' then
              (parseStringBody fuel rest2).map fun p => ('\r' :: p.1, p.2)
            else if e = 't' then
              (parseStringBody fuel rest2).map fun p => ('\t' :: p.1, p.2)
            else if e = 'u' then
              match rest2 with
              | h1 :: h2 :: h3 :: h4 :: rest3 =>
                  match hexVal h1, hexVal h2, hexVal h3, hexVal h4 with
                  | some a, some b, some cc, some d =>
                      (parseStringBody fuel rest3).map fun p =>
                        (Char.ofNat (a * 4096 + b * 256 + cc * 16 + d) :: p.1,
                          p.2)
                  | _, _, _, _ => none
              | _ => none
            else none
      else if c.toNat < 32 then none
      else (parseStringBody fuel rest).map fun p => (c :: p.1, p.2)

/-- Parse a JSON number (integer exactly; floats kept as literal text). -/
def parseNumber (l : List Char) : Option (Json × List Char) :=
  let (sign, l1) :=
    match l with
    | c :: rest => if c = '-' then (true, rest) else (false, l)
    | [] => (false, l)
  let digits := l1.takeWhile isJsonDigit
  let rest1 := l1.dropWhile isJsonDigit
  if digits = [] then none
  else
    let intVal : Nat := digits.foldl (fun acc c => acc * 10 + (c.toNat - 48)) 0
    match rest1 with
    | '.' :: rest2 =>
        let frac := rest2.takeWhile isJsonDigit
        let rest3 := rest2.dropWhile isJsonDigit
        if frac = [] then none
        else
          let body := (if sign then ['-'] else []) ++ digits ++ '.' :: frac
          match rest3 with
          | 'e' :: _ => none
          | 'E' :: _ => none
          | _ => some (.floatLit ⟨body⟩, rest3)
    | 'e' :: _ => none
    | 'E' :: _ => none
    | _ =>
        some (.num (if sign then -(intVal : Int) else (intVal : Int)), rest1)

/-- Parsing modes: a bare value, the tail of an array, or the tail of an
object (accumulated fields in order). -/
inductive JMode where
  | value
  | arrTail (acc : List Json)
  | objTail (acc : List (String × Json))

/-- The recursive-descent JSON parser. -/
def parseJ : Nat → JMode → List Char → Option (Json × List Char)
  | 0, _, _ => none
  | fuel + 1, .value, input =>
      match skipWs input with
      | [] => none
      | c :: rest =>
          if c = lbraceChar then
            match skipWs rest with
            | [] => none
            | c2 :: rest2 =>
                if c2 = rbraceChar then some (.obj [], rest2)
                else if c2 = quoteChar then
                  match parseStringBody (rest2.length + 1) rest2 with
                  | none => none
                  | some (key, rest3) =>
                      match skipWs rest3 with
                      | ':' :: rest4 =>
                          match parseJ fuel .value rest4 with
                          | none => none
                          | some (v, rest5) =>
                              parseJ fuel (.objTail [(⟨key⟩, v)]) rest5
                      | _ => none
                else none
          else if c = '[' then
            match skipWs rest with
            | [] => none
            | c2 :: rest2 =>
                if c2 = ']' then some (.arr [], rest2)
                else
                  match parseJ fuel .value (c2 :: rest2) with
                  | none => none
                  | some (v, rest3) => parseJ fuel (.arrTail [v]) rest3
          else if c = quoteChar then
            match parseStringBody (rest.length + 1) rest with
            | none => none
            | some (chars, rest2) => some (.str ⟨chars⟩, rest2)
          else if c = 't' then
            match rest with
            | 'r' :: 'u' :: 'e' :: rest2 => some (.bool true, rest2)
            | _ => none
          else if c = 'f' then
            match rest with
            | 'a' :: 'l' :: 's' :: 'e' :: rest2 => some (.bool false, rest2)
            | _ => none
          else if c = 'n' then
            match rest with
            | 'u' :: 'l' :: 'l' :: rest2 => some (.null, rest2)
            | _ => none
          else parseNumber (c :: rest)
  | fuel + 1, .arrTail acc, input =>
      match skipWs input with
      | ']' :: rest => some (.arr acc, rest)
      | ',' :: rest =>
          match parseJ fuel .value rest with
          | none => none
          | some (v, rest2) => parseJ fuel (.arrTail (acc ++ [v])) rest2
      | _ => none
  | fuel + 1, .objTail acc, input =>
      match skipWs input with
      | c :: rest =>
          if c = rbraceChar then some (.obj acc, rest)
          else if c = ',' then
            match skipWs rest with
            | c2 :: rest2 =>
                if c2 = quoteChar then
                  match parseStringBody (rest2.length + 1) rest2 with
                  | none => none
                  | some (key, rest3) =>
                      match skipWs rest3 with
                      | ':' :: rest4 =>
                          match parseJ fuel .value rest4 with
                          | none => none
                          | some (v, rest5) =>
                              parseJ fuel (.objTail (acc ++ [(⟨key⟩, v)])) rest5
                      | _ => none
                else none
            | [] => none
          else none
      | [] => none

/-- Model of Python `json.loads`: parse one value, allowing surrounding
whitespace only; `none` models a raised `json.JSONDecodeError`. -/
def jsonDecode (s : String) : Option Json :=
  match parseJ (s.data.length + 4) .value s.data with
  | some (v, rest) => if skipWs rest = [] then some v else none
  | none => none

/-! ## Question-decision protocol (`QuestionDecision`, `_parse_question_decision`) -/

/-- The model's decision about the next subject question
(`interview_agent.QuestionDecision`). -/
structure QuestionDecision where
  question : String
  subject_complete : Bool
  notes : Option String := none
deriving Repr, DecidableEq

/-- Python `s.startswith("\x7b")`. -/
def startsWithLbrace (s : String) : Bool :=
  match s.data with
  | c :: _ => c = lbraceChar
  | [] => false

/-- The brace-extraction step of `_parse_question_decision`: the stripped
response text itself when it already starts with a brace, otherwise the
first-`\x7b`-to-last-`\x7d` substring when such a span exists. -/
def questionDecisionCandidate (text : String) : String :=
  if startsWithLbrace (pyLstrip text) then text
  else
    match pyFindChar text lbraceChar, pyRfindChar text rbraceChar with
    | some start, some stop =>
        if start < stop then pySlice text start (stop + 1) else text
    | _, _ => text

/-- Embedding of `BusinessAnalystInterviewAgent._parse_question_decision`.
An `Except.error` models the `AttributeError` Python raises when
`json.loads` succeeds on a non-`dict` payload and `data.get` is called. -/
def parse_question_decision (raw : String) : Except String QuestionDecision :=
  let text := pyStrip raw
  if text = "" then .ok ⟨"", true, none⟩
  else
    match jsonDecode (questionDecisionCandidate text) with
    | none => .ok ⟨text, false, none⟩
    | some data =>
        match data with
        | .obj _ =>
            let question :=
              pyStrip (pyStrAny ((data.get "question").getD (.str "")))
            let subject_complete :=
              pyTruthy ((data.get "subject_complete").getD (.bool false))
            let notes :=
              match data.get "notes" with
              | some .null => none
              | some v => some (pyStrAny v)
              | none => none
            .ok ⟨question, subject_complete, notes⟩
        | _ => .error "AttributeError"

/-! ## Subject planner (`SUBJECT_PLAN`, question/completion state) -/

/-- A required interview subject (`interview_agent.InterviewSubject`). -/
structure InterviewSubject where
  name : String
  focus : String
deriving Repr, DecidableEq

/-- The fixed ordered interview plan (`interview_agent.SUBJECT_PLAN`). -/
def SUBJECT_PLAN : List InterviewSubject :=
  [⟨"Product Overview",
    "Clarify the product vision, target users, primary goals, timeline expectations, and differentiators."⟩,
   ⟨"KPI & Success Metrics",
    "Identify measurable outcomes, target KPIs, success criteria, and how progress will be tracked."⟩,
   ⟨"AS IS",
    "Document the current state, existing processes, manual workarounds, and pain points."⟩,
   ⟨"Scope In and Out",
    "Capture what capabilities are required, what is explicitly excluded, and priority boundaries."⟩,
   ⟨"Non-Functional Requirements",
    "Gather expectations for performance, security, compliance, availability, scalability, and reliability."⟩,
   ⟨"User Roles & Personas",
    "Understand the personas, their responsibilities, goals, and access needs."⟩,
   ⟨"Integrations & External Systems",
    "Determine required integrations, data exchanges, and system dependencies."⟩,
   ⟨"Constraints & Assumptions",
    "Surface budget, timeline, regulatory, technical, and business constraints along with key assumptions."⟩,
   ⟨"Dependencies & Risks",
    "Identify upstream or downstream dependencies, risks, and mitigation considerations."⟩]

/-- The mutable per-session subject-planning state of
`BusinessAnalystInterviewAgent` (`_subject_question_counts`,
`_subjects_completed`, `_current_subject_idx`, `_pending_subject_index`,
`_active_subject_index`). -/
structure SubjectState where
  subject_question_counts : List Nat
  subjects_completed : List Bool
  current_subject_idx : Nat
  pending_subject_index : Option Nat
  active_subject_index : Option Nat
deriving Repr, DecidableEq

/-- The state set up by `BusinessAnalystInterviewAgent.__init__`. -/
def initialSubjectState : SubjectState :=
  ⟨List.replicate SUBJECT_PLAN.length 0,
   List.replicate SUBJECT_PLAN.length false, 0, none, none⟩

/-- Lookup of `self._subjects_completed[i]` (indices are always in range at the
Python call sites; out-of-range reads default to `false`). -/
def completedAt (s : SubjectState) (i : Nat) : Bool :=
  s.subjects_completed.getD i false

/-- Lookup of `self._subject_question_counts[i]`. -/
def countAt (s : SubjectState) (i : Nat) : Nat :=
  s.subject_question_counts.getD i 0

/-- The `while` scan of `_advance_subject`, fuelled for structural
recursion; the fuel passed by `advance_subject` always exceeds the number
of loop iterations, so the zero-fuel branch is unreachable. -/
def advanceFrom : Nat → List Bool → Nat → Nat
  | 0, _, next_idx => next_idx
  | fuel + 1, completed, next_idx =>
      if next_idx < completed.length && completed.getD next_idx false then
        advanceFrom fuel completed (next_idx + 1)
      else next_idx

/-- Embedding of `BusinessAnalystInterviewAgent._advance_subject`. -/
def advance_subject (s : SubjectState) : SubjectState :=
  let next := advanceFrom (s.subjects_completed.length + 1)
    s.subjects_completed (s.current_subject_idx + 1)
  { s with current_subject_idx := next, active_subject_index := none }

/-- Embedding of `BusinessAnalystInterviewAgent._mark_subject_complete`. -/
def mark_subject_complete (s : SubjectState) (index : Nat) : SubjectState :=
  if index ≥ SUBJECT_PLAN.length then s
  else
    let completed' :=
      if s.subjects_completed.getD index false then s.subjects_completed
      else s.subjects_completed.set index true
    let s' := { s with subjects_completed := completed' }
    if index = s.current_subject_idx then advance_subject s' else s'

/-- Embedding of `_mark_current_subject_complete`. -/
def mark_current_subject_complete (s : SubjectState) : SubjectState :=
  mark_subject_complete s s.current_subject_idx

/-- Embedding of `BusinessAnalystInterviewAgent._handle_post_answer`. -/
def handle_post_answer (maxQ : Nat) (s : SubjectState) : SubjectState :=
  match s.active_subject_index with
  | none => s
  | some i =>
      let s' := if countAt s i ≥ maxQ then mark_subject_complete s i else s
      { s' with active_subject_index := none }

/-- The `while True` body of `_generate_next_question`, fuelled for
structural recursion.  The oracle models `_request_question_decision`
(one LLM round plus `_parse_question_decision`), which may inspect the
whole current state.  Every recursive call strictly increases
`current_subject_idx`, so fuel `SUBJECT_PLAN.length + 1` is never
exhausted from a reachable state. -/
def generateAux (oracle : SubjectState → QuestionDecision) (maxQ : Nat) :
    Nat → SubjectState → Option String × SubjectState
  | 0, s => (none, s)
  | fuel + 1, s =>
      if s.current_subject_idx ≥ SUBJECT_PLAN.length then (none, s)
      else if completedAt s s.current_subject_idx then
        generateAux oracle maxQ fuel (advance_subject s)
      else if countAt s s.current_subject_idx ≥ maxQ then
        generateAux oracle maxQ fuel (mark_current_subject_complete s)
      else
        let decision := oracle s
        if decision.subject_complete = true ∧ pyStrip decision.question = ""
        then generateAux oracle maxQ fuel (mark_current_subject_complete s)
        else
          let question_text := pyStrip decision.question
          if question_text = "" then
            generateAux oracle maxQ fuel (mark_current_subject_complete s)
          else
            (some question_text,
             { s with
                subject_question_counts :=
                  s.subject_question_counts.set s.current_subject_idx
                    (countAt s s.current_subject_idx + 1),
                pending_subject_index := some s.current_subject_idx,
                active_subject_index := some s.current_subject_idx })

/-- Embedding of `BusinessAnalystInterviewAgent._generate_next_question`. -/
def generate_next_question (oracle : SubjectState → QuestionDecision)
    (maxQ : Nat) (s : SubjectState) : Option String × SubjectState :=
  generateAux oracle maxQ (SUBJECT_PLAN.length + 1) s

/-- One ask/answer cycle as driven by `next_question`: the previously
generated question receives an answer (`_handle_post_answer`), after
which the next question is generated.  For trace simulation we compose
"generate, then answer": `askAnswerStep` maps the state just before a
question is generated to the state just after that question's answer is
processed. -/
def askAnswerStep (oracle : SubjectState → QuestionDecision) (maxQ : Nat)
    (s : SubjectState) : SubjectState :=
  handle_post_answer maxQ (generate_next_question oracle maxQ s).2

/-! ## Structured-summary normalization (`_normalize_structured_summary`) -/

/-- An AS-IS / TO-BE process (`as_is_agent.AsIsProcess` and
`to_be_agent.ToBeProcess` are structurally identical dataclasses, and the
normalized summary stores the same `name`/`happy_path`/`unhappy_path`
shape as a dict). -/
structure Process where
  name : String
  happy_path : List String
  unhappy_path : List String
deriving Repr, DecidableEq

/-- A stakeholder persona entry of the normalized summary. -/
structure Persona where
  name : String
  description : String
deriving Repr, DecidableEq

/-- A functional-requirement entry of the normalized summary. -/
structure Requirement where
  description : String
  business_rules : String
deriving Repr, DecidableEq

/-- The record returned by `_normalize_structured_summary`. -/
structure StructuredSummary where
  title : String
  project_overview : String
  project_objective : String
  scope_overview : String
  scope_in_scope : String
  scope_out_of_scope : String
  current_state : List String
  current_processes : List Process
  future_state : List String
  future_processes : List Process
  personas : List Persona
  functional_overview : String
  non_functional_requirements : List String
  assumptions : List String
  risks : List String
  open_issues : List String
  functional_requirements : List Requirement
deriving Repr, DecidableEq

/-- Model of `payload.get(key)` on a decoded JSON object's field list (missing key
and JSON `null` both behave as Python `None` downstream). -/
def pget (fields : List (String × Json)) (key : String) : Json :=
  ((Json.obj fields).get key).getD .null

/-- Embedding of `BusinessAnalystInterviewAgent._to_clean_string`. -/
def to_clean_string : Json → String
  | .str s => pyStrip s
  | .null => ""
  | v => pyStrip (pyStrAny v)

/-- Embedding of `BusinessAnalystInterviewAgent._sanitize_string_list`. -/
def sanitize_string_list (value : Json) (default : List String) :
    List String :=
  let items :=
    match value with
    | .arr elems =>
        (elems.map to_clean_string).filter (fun text => text != "")
    | .str s =>
        let text := pyStrip s
        if text = "" then [] else [text]
    | _ => []
  if items = [] then default else items

/-- Embedding of `BusinessAnalystInterviewAgent._sanitize_process_steps`. -/
def sanitize_process_steps (raw_steps : Json) : List String :=
  match raw_steps with
  | .arr elems =>
      (elems.map (fun entry => pyStrip (pyStrAny entry))).filterMap
        (fun text =>
          if text = "" then none
          else some (pyReplace (pyReplace text "|" "/") "\n" " "))
  | .str s =>
      ((pySplitSemicolon s).map pyStrip).filterMap
        (fun segment =>
          if segment = "" then none else some (pyReplace segment "|" "/"))
  | _ => []

/-- Embedding of `BusinessAnalystInterviewAgent._coerce_processes` (the
`constructor` parameter of the source is irrelevant here because both
process dataclasses have the same shape; `fallback_step` distinguishes
the AS-IS and TO-BE instantiations). -/
def coerce_processes (value : Json) (fallback_step : Option String) :
    List Process :=
  match value with
  | .arr elems =>
      elems.filterMap (fun entry =>
        match entry with
        | .obj fields =>
            let name :=
              pyStrip (pyStrAny (((Json.obj fields).get "name").getD
                (.str "")))
            if name = "" then none
            else
              let happy_steps := sanitize_process_steps (pget fields "happy_path")
              let unhappy_steps :=
                sanitize_process_steps (pget fields "unhappy_path")
              if happy_steps = [] ∧ unhappy_steps = [] then
                match fallback_step with
                | none => none
                | some fb =>
                    some ⟨pyReplace name "|" "/", [fb], unhappy_steps⟩
              else some ⟨pyReplace name "|" "/", happy_steps, unhappy_steps⟩
        | _ => none)
  | _ => []

/-- Embedding of `_coerce_as_is_processes`. -/
def coerce_as_is_processes (value : Json) : List Process :=
  coerce_processes value none

/-- Embedding of `_coerce_future_processes`. -/
def coerce_future_processes (value : Json) : List Process :=
  coerce_processes value (some "Future-state steps pending definition.")

/-- The per-entry process loop inside `_normalize_structured_summary`
(lines 908-932 for `current_processes` and 937-961 for
`future_processes`; the two loops differ only in the placeholder used
for a missing name). -/
def normalize_process_entries (value : Json) (missing_name : String) :
    List Process :=
  match value with
  | .arr elems =>
      elems.filterMap (fun entry =>
        match entry with
        | .obj fields =>
            let name := to_clean_string (pget fields "name")
            let happy_steps := sanitize_process_steps (pget fields "happy_path")
            let unhappy_steps :=
              sanitize_process_steps (pget fields "unhappy_path")
            if name = "" ∧ happy_steps = [] ∧ unhappy_steps = [] then none
            else
              some ⟨if name = "" then missing_name else name,
                    happy_steps, unhappy_steps⟩
        | _ => none)
  | _ => []

/-- The personas loop inside `_normalize_structured_summary`. -/
def normalize_personas (value : Json) : List Persona :=
  let personas :=
    match value with
    | .arr elems =>
        elems.filterMap (fun entry =>
          match entry with
          | .obj fields =>
              let name := to_clean_string (pget fields "name")
              let description := to_clean_string (pget fields "description")
              some ⟨if name = "" then "Stakeholder" else name,
                    if description = "" then "Pending clarification."
                    else description⟩
          | _ => none)
    | _ => []
  if personas = [] then [⟨"Stakeholder", "Pending clarification."⟩]
  else personas

/-- The functional-requirements loop inside
`_normalize_structured_summary`. -/
def normalize_requirements (value : Json) : List Requirement :=
  let requirements :=
    match value with
    | .arr elems =>
        elems.filterMap (fun entry =>
          let description :=
            match entry with
            | .obj fields => to_clean_string (pget fields "description")
            | other => to_clean_string other
          let business_rules :=
            match entry with
            | .obj fields => to_clean_string (pget fields "business_rules")
            | _ => ""
          if description = "" then none
          else
            some ⟨description,
                  if business_rules = "" then
                    "Define validation steps and data dependencies."
                  else business_rules⟩)
    | _ => []
  if requirements = [] then
    [⟨"Functional requirement pending clarification.",
      "Detail validation expectations and data dependencies once confirmed."⟩]
  else requirements

/-- A stripped string with a placeholder substituted when empty (the
`self._to_clean_string(...) or "..."` idiom). -/
def cleanOr (value : Json) (default : String) : String :=
  let text := to_clean_string value
  if text = "" then default else text

/-- Embedding of
`BusinessAnalystInterviewAgent._normalize_structured_summary`. -/
def normalize_structured_summary (payload : List (String × Json)) :
    StructuredSummary :=
  let scope_fields :=
    match pget payload "scope" with
    | .obj fields => fields
    | _ => []
  { title := cleanOr (pget payload "title") "Untitled Initiative"
    project_overview :=
      cleanOr (pget payload "project_overview") "Pending clarification."
    project_objective :=
      cleanOr (pget payload "project_objective") "Pending clarification."
    scope_overview := to_clean_string (pget scope_fields "overview")
    scope_in_scope :=
      cleanOr (pget scope_fields "in_scope") "Pending clarification."
    scope_out_of_scope :=
      cleanOr (pget scope_fields "out_of_scope") "Pending clarification."
    current_state :=
      sanitize_string_list (pget payload "current_state")
        ["Pending clarification."]
    current_processes :=
      normalize_process_entries (pget payload "current_processes")
        "Process detail pending clarification."
    future_state :=
      sanitize_string_list (pget payload "future_state")
        ["Pending clarification."]
    future_processes :=
      normalize_process_entries (pget payload "future_processes")
        "Future process detail pending clarification."
    personas := normalize_personas (pget payload "personas")
    functional_overview :=
      cleanOr (pget payload "functional_overview") "Pending clarification."
    non_functional_requirements :=
      sanitize_string_list (pget payload "non_functional_requirements")
        ["Pending clarification."]
    assumptions :=
      sanitize_string_list (pget payload "assumptions")
        ["Pending clarification."]
    risks :=
      sanitize_string_list (pget payload "risks") ["Pending clarification."]
    open_issues :=
      sanitize_string_list (pget payload "open_issues")
        ["Pending clarification."]
    functional_requirements :=
      normalize_requirements (pget payload "functional_requirements") }

/-! ## Conversation excerpt (`_conversation_excerpt`) -/

/-- A question/answer pair (`interview_agent.InterviewTurn`). -/
structure InterviewTurn where
  question : String
  answer : String
  subject : String := ""
deriving Repr, DecidableEq

/-- The `Q:`/`A:` line accumulation of `_conversation_excerpt`. -/
def excerptLines (turns : List InterviewTurn) : List String :=
  turns.foldr
    (fun turn acc =>
      let question := pyStrip turn.question
      let answer := pyStrip turn.answer
      (if question = "" then [] else ["Q: " ++ question]) ++
        (if answer = "" then [] else ["A: " ++ answer]) ++ acc)
    []

/-- Embedding of `BusinessAnalystInterviewAgent._conversation_excerpt`
with the source's default arguments `max_turns = 6`, `max_chars = 1500`
(the only values used by the call sites). -/
def conversation_excerpt (turns : List InterviewTurn) : String :=
  if turns = [] then ""
  else
    let selected_turns := turns.drop (turns.length - 6)
    let excerpt := pyStrip (String.intercalate "\n" (excerptLines selected_turns))
    if excerpt.length ≤ 1500 then excerpt
    else pyRstrip (pyTake excerpt (1500 - 5)) ++ "\n[...]"

/-! ## Specification review (`spec_review_agent.SpecificationReview`) -/

/-- A reviewer follow-up question (`spec_review_agent.FollowUpQuestion`). -/
structure FollowUpQuestion where
  question : String
  subject : Option String := none
  reason : Option String := none
deriving Repr, DecidableEq

/-- Embedding of `spec_review_agent.SpecificationReview`. -/
structure SpecificationReview where
  all_subjects_present : Bool
  missing_subjects : List String
  table_valid : Bool
  table_feedback : String
  follow_up_questions : List FollowUpQuestion
  feedback_for_interviewer : String
  language : String := "en"
deriving Repr, DecidableEq

/-- The `requires_follow_up` property of the review. -/
def SpecificationReview.requires_follow_up (r : SpecificationReview) : Bool :=
  !r.all_subjects_present || !r.table_valid || !r.follow_up_questions.isEmpty

/-- One hex digit (lower case, as emitted by `json.dumps`). -/
def hexDigit (n : Nat) : Char :=
  if n < 10 then Char.ofNat (48 + n) else Char.ofNat (87 + n)

/-- Four hex digits of a code unit. -/
def hex4 (n : Nat) : List Char :=
  [hexDigit (n / 4096 % 16), hexDigit (n / 256 % 16),
   hexDigit (n / 16 % 16), hexDigit (n % 16)]

/-- Model of `json.dumps` escaping of one character (default `ensure_ascii=True`:
quote, backslash and the short control escapes, `\uXXXX` for other
control or non-ASCII characters, surrogate pairs beyond the BMP). -/
def jsonEscapeChar (c : Char) : List Char :=
  if c = quoteChar then [backslashChar, quoteChar]
  else if c = backslashChar then [backslashChar, backslashChar]
  else if c = '\n' then [backslashChar, 'n']
  else if c = '\r' then [backslashChar, 'r']
  else if c = '\t' then [backslashChar, 't']
  else if c.toNat = 8 then [backslashChar, 'b']
  else if c.toNat = 12 then [backslashChar, 'f']
  else if c.toNat < 32 ∨ 126 < c.toNat then
    if c.toNat < 65536 then backslashChar :: 'u' :: hex4 c.toNat
    else
      let v := c.toNat - 65536
      (backslashChar :: 'u' :: hex4 (55296 + v / 1024)) ++
        (backslashChar :: 'u' :: hex4 (56320 + v % 1024))
  else [c]

/-- Model of `json.dumps` of a string (quoted, escaped). -/
def jsonStr (s : String) : String :=
  ⟨quoteChar :: (s.data.flatMap jsonEscapeChar) ++ [quoteChar]⟩

/-- Model of `json.dumps` of `str | None`. -/
def jsonStrOpt : Option String → String
  | none => "null"
  | some s => jsonStr s

/-- Model of `json.dumps` of a `bool`. -/
def jsonBoolStr : Bool → String
  | true => "true"
  | false => "false"

/-- The default `json.dumps` item separator `", "` applied between
already-serialized elements. -/
def joinCommaSep : List String → String
  | [] => ""
  | [s] => s
  | s :: rest => s ++ ", " ++ joinCommaSep rest

/-- Model of `json.dumps` of a list of strings. -/
def jsonStrList (l : List String) : String :=
  "[" ++ joinCommaSep (l.map jsonStr) ++ "]"

/-- Insert a string into a sorted duplicate-free list, keeping it sorted
and duplicate-free. -/
def insertUniqueSorted (x : String) : List String → List String
  | [] => [x]
  | y :: ys =>
      if x = y then y :: ys
      else if pyStrLt x y then x :: y :: ys
      else y :: insertUniqueSorted x ys

/-- Python `sorted(set(l))` for strings: the sorted duplicate-free list
of the elements of `l`. -/
def sortedDedup (l : List String) : List String :=
  l.foldr insertUniqueSorted []

/-- Model of `json.dumps(..., sort_keys=True)` of one follow-up-question payload
dict (keys in sorted order: `question`, `reason`, `subject`). -/
def followUpPayloadEntry (f : FollowUpQuestion) : String :=
  String.singleton lbraceChar ++
    "\"question\": " ++ jsonStr f.question ++
    ", \"reason\": " ++ jsonStrOpt f.reason ++
    ", \"subject\": " ++ jsonStrOpt f.subject ++
    String.singleton rbraceChar

/-- Embedding of `SpecificationReview.fingerprint`:
`json.dumps(payload, sort_keys=True)` with the payload dict of the
source, keys serialized in sorted order and `missing_subjects` replaced
by `sorted(set(...))`.  The `language` field is not part of the payload. -/
def SpecificationReview.fingerprint (r : SpecificationReview) : String :=
  String.singleton lbraceChar ++
    "\"all_subjects_present\": " ++ jsonBoolStr r.all_subjects_present ++
    ", \"feedback_for_interviewer\": " ++ jsonStr r.feedback_for_interviewer ++
    ", \"follow_up_questions\": " ++
      ("[" ++ joinCommaSep (r.follow_up_questions.map followUpPayloadEntry)
        ++ "]") ++
    ", \"missing_subjects\": " ++ jsonStrList (sortedDedup r.missing_subjects) ++
    ", \"table_feedback\": " ++ jsonStr r.table_feedback ++
    ", \"table_valid\": " ++ jsonBoolStr r.table_valid ++
    String.singleton rbraceChar

/-- The localized reviewer template strings consumed by
`outstanding_items` (`spec_review_agent.ReviewerLanguageConfig`; the
remaining fields of the source dataclass are prompt text for the LLM
call and are not consumed by the core logic modelled here). -/
structure ReviewerLanguageConfig where
  outstanding_missing_template : String
  outstanding_table_generic : String
  outstanding_follow_subject_template : String
  outstanding_follow_generic_template : String
deriving Repr, DecidableEq

/-- The English reviewer configuration. -/
def enReviewerConfig : ReviewerLanguageConfig :=
  { outstanding_missing_template := "Subjects still missing: {subjects}"
    outstanding_table_generic :=
      "Functional Requirements table still requires updates to pass validation."
    outstanding_follow_subject_template := "Follow up on '{subject}': {detail}"
    outstanding_follow_generic_template := "Follow up needed: {detail}" }

/-- The Spanish reviewer configuration. -/
def esReviewerConfig : ReviewerLanguageConfig :=
  { outstanding_missing_template := "Temas pendientes: {subjects}"
    outstanding_table_generic :=
      "La tabla de Functional Requirements aun necesita ajustes para pasar la validacion."
    outstanding_follow_subject_template :=
      "Dar seguimiento a '{subject}': {detail}"
    outstanding_follow_generic_template := "Se requiere seguimiento: {detail}" }

/-- Embedding of `spec_review_agent._get_reviewer_config` (default language `"en"`). -/
def get_reviewer_config (language : String) : ReviewerLanguageConfig :=
  if language = "en" then enReviewerConfig
  else if language = "es" then esReviewerConfig
  else enReviewerConfig

/-- Python `template.format(key=value)` for a single named field. -/
def pyFormat1 (template key value : String) : String :=
  pyReplace template
    (String.singleton lbraceChar ++ key ++ String.singleton rbraceChar) value

/-- Python `template.format` with two named fields. -/
def pyFormat2 (template k1 v1 k2 v2 : String) : String :=
  pyFormat1 (pyFormat1 template k1 v1) k2 v2

/-- Python truthiness of an `Optional[str]`. -/
def optStrTruthy : Option String → Bool
  | some s => s != ""
  | none => false

/-- Embedding of `SpecificationReview.outstanding_items`. -/
def SpecificationReview.outstanding_items (r : SpecificationReview) :
    List String :=
  let config := get_reviewer_config r.language
  let items :=
    (if !r.missing_subjects.isEmpty then
      [pyFormat1 config.outstanding_missing_template "subjects"
        (String.intercalate ", " (sortedDedup r.missing_subjects))]
     else []) ++
    (if !r.table_valid then
      [if r.table_feedback ≠ "" then r.table_feedback
       else config.outstanding_table_generic]
     else []) ++
    r.follow_up_questions.map (fun follow_up =>
      let detail :=
        if optStrTruthy follow_up.reason then
          follow_up.question ++ " (" ++ follow_up.reason.getD "" ++ ")"
        else follow_up.question
      if optStrTruthy follow_up.subject then
        pyFormat2 config.outstanding_follow_subject_template
          "subject" (follow_up.subject.getD "") "detail" detail
      else pyFormat1 config.outstanding_follow_generic_template "detail" detail)
  if items = [] ∧ r.feedback_for_interviewer ≠ "" then
    [r.feedback_for_interviewer]
  else items

/-! ## Review convergence loop (`run_interview._produce_reviewed_specification`) -/

/-- Outcome of the review convergence loop: how many `summarize` calls
were issued, the warnings surfaced on a stall, and whether the draft was
accepted by the reviewer. -/
structure ReviewLoopResult where
  summarizeCalls : Nat
  review_warnings : List String
  accepted : Bool
deriving Repr, DecidableEq

/-- The `while True` loop of `_produce_reviewed_specification`.  The
review returned for the `k`-th summarize call is `reviews k` (the
summarize / reviewer LLM round is the opaque collaborator).  `remaining`
equals `review_max_passes - attempt_count` of the source: the source
breaks when `attempt_count >= review_max_passes`, i.e. when `remaining`
is zero, and otherwise increments `attempt_count`, i.e. decrements
`remaining`.  `seen` is the `seen_signatures` set. -/
def produceReviewedAux (reviews : Nat → SpecificationReview) :
    Nat → Nat → List String → ReviewLoopResult
  | remaining, k, seen =>
      let review := reviews k
      if review.requires_follow_up = false then ⟨k + 1, [], true⟩
      else
        let review_signature := review.fingerprint
        if review_signature ∈ seen then ⟨k + 1, review.outstanding_items, false⟩
        else
          match remaining with
          | 0 => ⟨k + 1, review.outstanding_items, false⟩
          | remaining' + 1 =>
              produceReviewedAux reviews remaining' (k + 1)
                (review_signature :: seen)

/-- Embedding of `run_interview._produce_reviewed_specification`
restricted to its loop structure (drafting, review, fingerprint-based
stall detection, pass cap). -/
def produce_reviewed_specification (reviews : Nat → SpecificationReview)
    (review_max_passes : Nat) : ReviewLoopResult :=
  produceReviewedAux reviews review_max_passes 0 []

/-! ## AS-IS confirmation with memoization (`_apply_as_is_confirmation`) -/

/-- A per-process structural signature
(`interview_agent.ProcessSignature`). -/
abbrev ProcessSignature := String × List String × List String

/-- Embedding of `interview_agent.SummarySignature`. -/
abbrev SummarySignature := Nat × List String × List ProcessSignature

/-- Embedding of `BusinessAnalystInterviewAgent._process_signature`. -/
def process_signature (processes : List Process) : List ProcessSignature :=
  processes.map fun p =>
    (pyStrip p.name, p.happy_path.map pyStrip, p.unhappy_path.map pyStrip)

/-- Embedding of `BusinessAnalystInterviewAgent._items_signature`. -/
def items_signature (items : List String) : List String :=
  items.map pyStrip

/-- Embedding of `BusinessAnalystInterviewAgent._compose_process_summary_signature`. -/
def compose_process_summary_signature (turn_count : Nat)
    (items : List String) (processes : List Process) : SummarySignature :=
  (turn_count, items_signature items, process_signature processes)

/-- Embedding of `BusinessAnalystInterviewAgent._items_equivalent`. -/
def items_equivalent (first second : List String) : Bool :=
  items_signature first == items_signature second

/-- Embedding of `BusinessAnalystInterviewAgent._processes_equivalent`. -/
def processes_equivalent (first second : List Process) : Bool :=
  process_signature first == process_signature second

/-- Embedding of `BusinessAnalystInterviewAgent._serialize_processes`. -/
def serialize_processes (processes : List Process) : Json :=
  .arr (processes.map fun p =>
    .obj [("name", .str p.name),
          ("happy_path", .arr (p.happy_path.map .str)),
          ("unhappy_path", .arr (p.unhappy_path.map .str))])

/-- The AS-IS slice of `summary_data` read and written by
`_apply_as_is_confirmation` (`current_state` holds strings after
normalization; `current_processes` is the raw JSON process list). -/
structure AsIsSummaryFields where
  current_state : List String
  current_processes : Json

/-- The AS-IS confirmation memo owned by the agent
(`_approved_as_is_items`, `_approved_as_is_processes`,
`_as_is_confirmed_turns`, `_as_is_signature`). -/
structure AsIsConfirmationState where
  approved_as_is_items : Option (List String)
  approved_as_is_processes : Option (List Process)
  as_is_confirmed_turns : Nat
  as_is_signature : Option SummarySignature

/-- The confirmation state set up by `__init__`. -/
def initialAsIsConfirmationState : AsIsConfirmationState :=
  ⟨none, none, 0, none⟩

/-- The result of `AsIsDerivationAgent.derive` (an opaque LLM
collaborator). -/
structure AsIsDraft where
  items : List String
  processes : List Process

/-- The result of `ConsoleAsIsReviewer.confirm_as_is` (an opaque human /
simulated collaborator). -/
structure AsIsReviewResult where
  items : List String
  processes : List Process
  stakeholder_comment : String

/-- The slow path of `_apply_as_is_confirmation`: the confirmation
collaborator is invoked and its result persisted as the new approval
(one derivation call and one confirmation call). -/
def as_is_slow_path (turn_count : Nat) (summary : AsIsSummaryFields)
    (review : AsIsReviewResult) :
    AsIsConfirmationState × AsIsSummaryFields × Nat × Nat :=
  let approved_items := review.items
  let approved_processes := review.processes
  (⟨some approved_items, some approved_processes, turn_count,
    some (compose_process_summary_signature turn_count approved_items
      approved_processes)⟩,
   { summary with
      current_state := approved_items,
      current_processes := serialize_processes approved_processes },
   1, 1)

/-- Embedding of `BusinessAnalystInterviewAgent._apply_as_is_confirmation`
as a state transition.  `derived_draft` and `review` are the values the
opaque derivation / confirmation collaborators would return if invoked;
the last two components count how many derivation calls and confirmation
calls the invocation actually issues, so memoization claims are claims
about those counters.  The `except` fallback of the source (collaborator
exceptions) is outside this model: the collaborators are total here. -/
def apply_as_is_confirmation (st : AsIsConfirmationState) (turn_count : Nat)
    (summary : AsIsSummaryFields) (derived_draft : AsIsDraft)
    (review : AsIsReviewResult) :
    AsIsConfirmationState × AsIsSummaryFields × Nat × Nat :=
  match st.approved_as_is_items, st.approved_as_is_processes with
  | some approved_items, some approved_processes =>
      if turn_count = st.as_is_confirmed_turns then
        (st,
         { summary with
            current_state := approved_items,
            current_processes := serialize_processes approved_processes },
         0, 0)
      else
        let derived_items := derived_draft.items
        let derived_processes := derived_draft.processes
        let current_signature := compose_process_summary_signature
          turn_count derived_items derived_processes
        if st.as_is_signature == some current_signature then
          (st,
           { summary with
              current_state := approved_items,
              current_processes := serialize_processes approved_processes },
           1, 0)
        else if items_equivalent approved_items derived_items &&
            processes_equivalent approved_processes derived_processes then
          ({ st with
              as_is_signature := some current_signature,
              as_is_confirmed_turns := turn_count },
           { summary with
              current_state := approved_items,
              current_processes := serialize_processes approved_processes },
           1, 0)
        else as_is_slow_path turn_count summary review
  | _, _ => as_is_slow_path turn_count summary review

/-! ## Session traces and claim-specific instances -/

/-- One public operation of the interview session that touches the
subject-planning state: generating the next question
(`kickoff` / the tail of `next_question`) or processing an answer
(`next_question`'s `_handle_post_answer`). -/
inductive SessionOp where
  | ask (oracle : SubjectState → QuestionDecision)
  | answer

/-- Apply one session operation. -/
def applyOp (maxQ : Nat) : SessionOp → SubjectState → SubjectState
  | .ask oracle, s => (generate_next_question oracle maxQ s).2
  | .answer, s => handle_post_answer maxQ s

/-- Run a list of session operations from a state. -/
def runOps (maxQ : Nat) : List SessionOp → SubjectState → SubjectState
  | [], s => s
  | op :: rest, s => runOps maxQ rest (applyOp maxQ op s)

/-- The monotonicity contract of one subject-planner step: completion
flags never reset, the current subject index never moves backwards,
every subject index strictly passed over is completed afterwards, and
per-subject question counters never exceed an already-respected cap. -/
def StepOK (maxQ : Nat) (s s' : SubjectState) : Prop :=
  (∀ i, completedAt s i = true → completedAt s' i = true) ∧
  s.current_subject_idx ≤ s'.current_subject_idx ∧
  (∀ j, s.current_subject_idx ≤ j → j < s'.current_subject_idx →
    completedAt s' j = true) ∧
  (∀ i, countAt s i ≤ maxQ → countAt s' i ≤ maxQ)

/-- Well-formedness of the planner state: the completion list covers the
fixed subject plan (established by `__init__` and preserved by every
transition, since Python lists keep their length under item
assignment). -/
def WF (s : SubjectState) : Prop :=
  s.subjects_completed.length = SUBJECT_PLAN.length

/-- Scenario A's model behaviour: always a non-empty question with
`subject_complete = false`. -/
def scenarioAOracle : SubjectState → QuestionDecision :=
  fun _ => ⟨"What outcome should the product achieve?", false, none⟩

/-- The list-field part of the normalization-totality claim, exactly as
stated: every list field of the normalized record has at least one
entry. -/
def claimAllListFieldsNonempty (s : StructuredSummary) : Prop :=
  s.current_state ≠ [] ∧ s.current_processes ≠ [] ∧ s.future_state ≠ [] ∧
  s.future_processes ≠ [] ∧ s.personas ≠ [] ∧
  s.non_functional_requirements ≠ [] ∧ s.assumptions ≠ [] ∧ s.risks ≠ [] ∧
  s.open_issues ≠ [] ∧ s.functional_requirements ≠ []

/-- A payload whose only content is one named process without steps. -/
def namedStepLessProcessPayload : List (String × Json) :=
  [("current_processes", Json.arr [Json.obj [("name", Json.str "Order intake")]])]

/-- A concrete review that demands follow-up (used to instantiate the
review-loop and fingerprint theorems). -/
def sampleReview : SpecificationReview :=
  { all_subjects_present := false
    missing_subjects := ["AS IS"]
    table_valid := true
    table_feedback := ""
    follow_up_questions := []
    feedback_for_interviewer := "Cover the AS IS subject."
    language := "en" }

/-- Review `sampleReview` with one duplicate `missing_subjects` entry added. -/
def sampleReviewDup : SpecificationReview :=
  { sampleReview with missing_subjects := ["AS IS", "AS IS"] }

/-- Review `sampleReview` with only the `language` field changed. -/
def sampleReviewEs : SpecificationReview :=
  { sampleReview with language := "es" }

/-- A transcript whose excerpt exceeds the 1500-character cap. -/
def longAnswerTurns : List InterviewTurn :=
  [⟨"How does intake work today?", ⟨List.replicate 1600 'a'⟩, "AS IS"⟩]

end BA

deriving instance DecidableEq for Except

namespace BA

/-! ## Theorems -/

/-- Claim C6 (amended) — for every response whose stripped text is non-empty
and on which the brace-extraction candidate fails to decode as JSON, the
question-decision parser returns the *stripped* response text as the
question with `subject_complete = false`, and raises no exception. -/
theorem C6_tolerant_parsing_fallback (raw : String)
    (hne : pyStrip raw ≠ "")
    (hfail : (jsonDecode (questionDecisionCandidate (pyStrip raw))).isNone
      = true) :
    parse_question_decision raw = .ok ⟨pyStrip raw, false, none⟩ := by
  rw [Option.isNone_iff_eq_none] at hfail
  unfold parse_question_decision
  simp only [if_neg hne, hfail]

/-- Claim C6 (witness) — the fallback theorem applied to a concrete
freeform response. -/
theorem C6_tolerant_parsing_fallback_witness :
    pyStrip "Could you describe the current intake workflow?" ≠ "" ∧
    parse_question_decision "Could you describe the current intake workflow?"
      = .ok ⟨pyStrip "Could you describe the current intake workflow?",
             false, none⟩ :=
  ⟨by decide,
   C6_tolerant_parsing_fallback "Could you describe the current intake workflow?"
     (by decide) (by decide)⟩

/-- Claim C6 (counterexample) — the claim as stated fails: for the
non-JSON response `" tell me more "` the parser returns the *stripped*
text `"tell me more"` as the question, not the raw string. -/
theorem C6_counterexample :
    parse_question_decision " tell me more " =
      .ok ⟨"tell me more", false, none⟩ ∧
    parse_question_decision " tell me more " ≠
      .ok ⟨" tell me more ", false, none⟩ := by decide

/-- Claim C10 — a response that is empty or all whitespace parses to
`\x7bquestion: "", subject_complete: true\x7d` (not the free-text
fallback), and a session whose decisions all take that shape surfaces no
question: from the initial state, `_generate_next_question` marks every
subject complete, advances past the whole plan and returns `None`. -/
theorem C10_blank_response_completes_subject (raw : String)
    (h : pyStrip raw = "") :
    parse_question_decision raw = .ok ⟨"", true, none⟩ ∧
    generate_next_question (fun _ => ⟨"", true, none⟩) 2 initialSubjectState
      = (none,
         { subject_question_counts := List.replicate 9 0
           subjects_completed := List.replicate 9 true
           current_subject_idx := 9
           pending_subject_index := none
           active_subject_index := none }) := by
  constructor
  · unfold parse_question_decision
    simp [h]
  · decide

/-- Claim C10 (witness) — the theorem applied to a concrete whitespace
response. -/
theorem C10_blank_response_completes_subject_witness :
    parse_question_decision "   " = .ok ⟨"", true, none⟩ :=
  (C10_blank_response_completes_subject "   " (by decide)).1

/-- Claim C5 — Scenario A: with a cap of 2 questions per subject and the
fixed 9-subject plan, a model that always returns a non-empty question
with `subject_complete = false` yields exactly 18 ask/answer cycles
(each cycle produces a question), after which every subject is
force-completed with its counter at the cap, and the next question
request returns `None`. -/
theorem C5_scenario_a_eighteen_questions :
    ((List.range 18).all fun k =>
      ((generate_next_question scenarioAOracle 2
        ((askAnswerStep scenarioAOracle 2)^[k] initialSubjectState)).1).isSome)
      = true ∧
    ((askAnswerStep scenarioAOracle 2)^[18] initialSubjectState).subjects_completed
      = List.replicate 9 true ∧
    ((askAnswerStep scenarioAOracle 2)^[18]
        initialSubjectState).subject_question_counts
      = List.replicate 9 2 ∧
    (generate_next_question scenarioAOracle 2
      ((askAnswerStep scenarioAOracle 2)^[18] initialSubjectState)).1 = none
    := by decide

/-- Claim C2 — starting with no recorded approval, two AS-IS confirmation
calls at the same transcript turn count issue exactly one derivation
call and one confirmation-collaborator call in total: the first call
takes the slow path (1 derivation, 1 confirmation), the second takes the
turn-count fast path (0 calls of either kind), leaves the stored
approval untouched and writes the approved items/processes verbatim into
the summary. -/
theorem C2_as_is_confirmation_memoized (n : Nat) (s1 s2 : AsIsSummaryFields)
    (d1 d2 : AsIsDraft) (r1 r2 : AsIsReviewResult) :
    let first := apply_as_is_confirmation initialAsIsConfirmationState n s1 d1 r1
    let second := apply_as_is_confirmation first.1 n s2 d2 r2
    first.2.2 = (1, 1) ∧
    second.2.2 = (0, 0) ∧
    first.2.2.2 + second.2.2.2 = 1 ∧
    second.2.1.current_state = r1.items ∧
    second.2.1.current_processes = serialize_processes r1.processes ∧
    second.1 = first.1 := by
  simp [apply_as_is_confirmation, as_is_slow_path, initialAsIsConfirmationState]

/-- The loop of `_produce_reviewed_specification` issues at most
`k + remaining + 1` summarize calls when entered at call index `k` with
`remaining` passes left. -/
theorem produceReviewedAux_calls_le (reviews : Nat → SpecificationReview) :
    ∀ remaining k seen,
      (produceReviewedAux reviews remaining k seen).summarizeCalls
        ≤ k + remaining + 1 := by
  intro remaining
  induction remaining with
  | zero =>
      intro k seen
      unfold produceReviewedAux
      dsimp only
      split
      · dsimp only
        omega
      · split
        · dsimp only
          omega
        · dsimp only
          omega
  | succ r ih =>
      intro k seen
      unfold produceReviewedAux
      dsimp only
      split
      · dsimp only
        omega
      · split
        · dsimp only
          omega
        · have := ih (k + 1)
            ((reviews k).fingerprint :: seen)
          omega

/-- Claim C1 — the review-convergence loop always terminates within
`review_max_passes + 1` summarize/review cycles; and when the reviewer
returns an identical follow-up-requiring `SpecificationReview` on the
first two passes, the loop stops after the second pass with
`review_warnings = review.outstanding_items()`, never issuing a third
summarize call. -/
theorem C1_review_loop_terminates (reviews : Nat → SpecificationReview)
    (review_max_passes : Nat) :
    (produce_reviewed_specification reviews review_max_passes).summarizeCalls
      ≤ review_max_passes + 1 ∧
    (1 ≤ review_max_passes →
      reviews 1 = reviews 0 →
      (reviews 0).requires_follow_up = true →
      produce_reviewed_specification reviews review_max_passes =
        ⟨2, (reviews 1).outstanding_items, false⟩) := by
  constructor
  · have h := produceReviewedAux_calls_le reviews review_max_passes 0 []
    simpa [produce_reviewed_specification] using h
  · intro hmax h10 hreq
    obtain ⟨m, rfl⟩ : ∃ m, review_max_passes = m + 1 :=
      ⟨review_max_passes - 1, by omega⟩
    unfold produce_reviewed_specification
    unfold produceReviewedAux
    dsimp only
    rw [if_neg (by simp [hreq])]
    rw [if_neg (by simp)]
    unfold produceReviewedAux
    dsimp only
    rw [h10]
    rw [if_neg (by simp [hreq])]
    rw [if_pos (by simp)]

/-- Claim C1 (witness) — the stalling branch at a concrete review stream
that repeats a follow-up-requiring review. -/
theorem C1_review_loop_terminates_witness :
    produce_reviewed_specification (fun _ => sampleReview) 2 =
      ⟨2, sampleReview.outstanding_items, false⟩ :=
  (C1_review_loop_terminates (fun _ => sampleReview) 2).2
    (by decide) rfl (by decide)

/-- The idiom `_to_clean_string(...) or default` is never empty when the default
is not. -/
theorem cleanOr_ne_empty (v : Json) (default : String) (h : default ≠ "") :
    cleanOr v default ≠ "" := by
  unfold cleanOr
  dsimp only
  split
  · exact h
  · assumption

/-- The embedding of `_sanitize_string_list` never returns an empty list when its default
is non-empty. -/
theorem sanitize_string_list_ne_nil (v : Json) (default : List String)
    (h : default ≠ []) : sanitize_string_list v default ≠ [] := by
  unfold sanitize_string_list
  dsimp only
  split
  · exact h
  · assumption

/-- The personas loop always yields at least one persona. -/
theorem normalize_personas_ne_nil (v : Json) : normalize_personas v ≠ [] := by
  unfold normalize_personas
  dsimp only
  split
  · simp
  · assumption

/-- The functional-requirements loop always yields at least one entry. -/
theorem normalize_requirements_ne_nil (v : Json) :
    normalize_requirements v ≠ [] := by
  unfold normalize_requirements
  dsimp only
  split
  · simp
  · assumption

/-- Claim C3 (counterexample) — the claim as stated fails on the payload
holding a single named but step-less process entry: normalization keeps
that entry while the claim requires every kept process to retain a step,
and on the empty object the process lists are empty rather than
populated with a placeholder. -/
theorem C3_counterexample :
    ¬ claimAllListFieldsNonempty (normalize_structured_summary []) :=
  fun h => h.2.1 rfl

/-- Claim C3 (amended) — for any JSON object, normalization yields
non-empty values for every required string field (`title`,
`project_overview`, `project_objective`, `scope.in_scope`,
`scope.out_of_scope`, `functional_overview`; `scope.overview` is
optional and may stay empty) and at least one entry in every list field
except `current_processes` and `future_processes`, which are empty
whenever the input supplies no usable process entry. -/
theorem C3_normalization_totality (payload : List (String × Json)) :
    (normalize_structured_summary payload).title ≠ "" ∧
    (normalize_structured_summary payload).project_overview ≠ "" ∧
    (normalize_structured_summary payload).project_objective ≠ "" ∧
    (normalize_structured_summary payload).scope_in_scope ≠ "" ∧
    (normalize_structured_summary payload).scope_out_of_scope ≠ "" ∧
    (normalize_structured_summary payload).functional_overview ≠ "" ∧
    (normalize_structured_summary payload).current_state ≠ [] ∧
    (normalize_structured_summary payload).future_state ≠ [] ∧
    (normalize_structured_summary payload).personas ≠ [] ∧
    (normalize_structured_summary payload).non_functional_requirements ≠ [] ∧
    (normalize_structured_summary payload).assumptions ≠ [] ∧
    (normalize_structured_summary payload).risks ≠ [] ∧
    (normalize_structured_summary payload).open_issues ≠ [] ∧
    (normalize_structured_summary payload).functional_requirements ≠ [] :=
  ⟨cleanOr_ne_empty _ _ (by decide), cleanOr_ne_empty _ _ (by decide),
   cleanOr_ne_empty _ _ (by decide), cleanOr_ne_empty _ _ (by decide),
   cleanOr_ne_empty _ _ (by decide), cleanOr_ne_empty _ _ (by decide),
   sanitize_string_list_ne_nil _ _ (by decide),
   sanitize_string_list_ne_nil _ _ (by decide),
   normalize_personas_ne_nil _,
   sanitize_string_list_ne_nil _ _ (by decide),
   sanitize_string_list_ne_nil _ _ (by decide),
   sanitize_string_list_ne_nil _ _ (by decide),
   sanitize_string_list_ne_nil _ _ (by decide),
   normalize_requirements_ne_nil _⟩

/-- Every process kept by `_coerce_processes` has a step on at least one
path: step-less entries are dropped, or receive the fallback happy-path
step when one is configured. -/
theorem coerce_processes_steps_nonempty (value : Json) (fb : Option String) :
    ∀ p ∈ coerce_processes value fb,
      p.happy_path ≠ [] ∨ p.unhappy_path ≠ [] := by
  intro p hp
  cases value with
  | arr elems =>
      simp only [coerce_processes, List.mem_filterMap] at hp
      obtain ⟨entry, _, heq⟩ := hp
      cases entry with
      | obj fields =>
          dsimp only at heq
          split at heq
          · exact absurd heq (by simp)
          · split at heq
            · cases fb with
              | none => exact absurd heq (by simp)
              | some fbs =>
                  cases heq
                  exact Or.inl (by simp)
            · cases heq
              rename_i hno
              rcases Decidable.not_and_iff_or_not.mp hno with h | h
              · exact Or.inl h
              · exact Or.inr h
      | null => exact absurd heq (by simp)
      | bool b => exact absurd heq (by simp)
      | num n => exact absurd heq (by simp)
      | floatLit l => exact absurd heq (by simp)
      | str s => exact absurd heq (by simp)
      | arr l => exact absurd heq (by simp)
  | null => simp [coerce_processes] at hp
  | bool b => simp [coerce_processes] at hp
  | num n => simp [coerce_processes] at hp
  | floatLit l => simp [coerce_processes] at hp
  | str s => simp [coerce_processes] at hp
  | obj fields => simp [coerce_processes] at hp

/-- Claim C7 (counterexample) — the claim as stated fails: after
normalization, a process entry with a name but no steps is kept in
`current_processes` with both paths empty. -/
theorem C7_counterexample :
    ¬ (∀ p ∈ (normalize_structured_summary
          namedStepLessProcessPayload).current_processes,
        p.happy_path ≠ [] ∨ p.unhappy_path ≠ []) := by decide

/-- Claim C7 (amended) — the ≥1-path invariant is established by process
*coercion* (`_coerce_as_is_processes` / `_coerce_future_processes`,
applied whenever processes are rendered or confirmed), not by
`_normalize_structured_summary`: every coerced process has at least one
non-empty path, entries failing this are dropped for current-state
processes and receive the placeholder happy-path step for future-state
processes. -/
theorem C7_coerced_processes_have_steps (value : Json) :
    (∀ p ∈ coerce_as_is_processes value,
      p.happy_path ≠ [] ∨ p.unhappy_path ≠ []) ∧
    (∀ p ∈ coerce_future_processes value,
      p.happy_path ≠ [] ∨ p.unhappy_path ≠ []) :=
  ⟨coerce_processes_steps_nonempty value none,
   coerce_processes_steps_nonempty value
     (some "Future-state steps pending definition.")⟩

/-- Claim C7 (witness) — the amended theorem applied to the step-less
named entry, which future-state coercion keeps with the placeholder
step. -/
theorem C7_coerced_processes_have_steps_witness :
    (⟨"Order intake", ["Future-state steps pending definition."], []⟩
      : Process).happy_path ≠ [] ∨
    (⟨"Order intake", ["Future-state steps pending definition."], []⟩
      : Process).unhappy_path ≠ [] :=
  (C7_coerced_processes_have_steps
      (Json.arr [Json.obj [("name", Json.str "Order intake")]])).2
    ⟨"Order intake", ["Future-state steps pending definition."], []⟩
    (by decide)

/-- Length of `(⟨l⟩ : String)` is the list length. -/
theorem length_mk_data (l : List Char) : (String.mk l).length = l.length := rfl

/-- Data of an append: `(a ++ b).data = a.data ++ b.data`. -/
theorem data_append (a b : String) : (a ++ b).data = a.data ++ b.data := rfl

/-- Python `str.rstrip` never lengthens a string. -/
theorem length_pyRstrip_le (s : String) : (pyRstrip s).length ≤ s.length := by
  show (rstripChars s.data).length ≤ s.data.length
  unfold rstripChars
  calc ((s.data.reverse.dropWhile isPySpace).reverse).length
      = (s.data.reverse.dropWhile isPySpace).length := by
        rw [List.length_reverse]
    _ ≤ s.data.reverse.length := (List.dropWhile_sublist _).length_le
    _ = s.data.length := by rw [List.length_reverse]

/-- A Python slice `s[:n]` has at most `n` characters. -/
theorem length_pyTake_le (s : String) (n : Nat) : (pyTake s n).length ≤ n := by
  show (s.data.take n).length ≤ n
  simp [List.length_take]

/-- Claim C9 (counterexample) — the claim's 1500-character hard cap fails:
on a transcript with a long answer the returned excerpt has exactly 1501
characters, because the `max_chars - 5` slice leaves room for the
5-character `[...]` marker but not for the newline prepended to it. -/
theorem C9_counterexample :
    1500 < (conversation_excerpt longAnswerTurns).length := by decide

/-- Claim C9 (amended) — for every transcript, the conversation excerpt
used to seed confirmation derivation is built from at most the last 6
turns and is capped at 1501 characters (1500 when no truncation occurs;
the truncated form is the first 1495 characters right-stripped, plus a
newline and the 5-character marker); whenever the untruncated excerpt
exceeds 1500 characters the result ends with the `[...]` marker. -/
theorem C9_conversation_excerpt_bounded (turns : List InterviewTurn) :
    (conversation_excerpt turns).length ≤ 1501 ∧
    conversation_excerpt turns =
      conversation_excerpt (turns.drop (turns.length - 6)) ∧
    (1500 < (pyStrip (String.intercalate "\n"
        (excerptLines (turns.drop (turns.length - 6))))).length →
      "[...]".data <:+ (conversation_excerpt turns).data) := by
  refine ⟨?_, ?_, ?_⟩
  · unfold conversation_excerpt
    split
    · simp
    · dsimp only
      split
      · omega
      · rw [String.length_append]
        have h1 := length_pyRstrip_le (pyTake (pyStrip (String.intercalate "\n"
          (excerptLines (turns.drop (turns.length - 6))))) (1500 - 5))
        have h2 := length_pyTake_le (pyStrip (String.intercalate "\n"
          (excerptLines (turns.drop (turns.length - 6))))) (1500 - 5)
        have h3 : ("\n[...]" : String).length = 6 := by decide
        omega
  · by_cases h : turns = []
    · subst h
      rfl
    · have hpos : 0 < turns.length := List.length_pos.mpr h
      have hne : turns.drop (turns.length - 6) ≠ [] := by
        intro hc
        have hlen := congrArg List.length hc
        rw [List.length_drop] at hlen
        simp only [List.length_nil] at hlen
        omega
      have hsel : (turns.drop (turns.length - 6)).drop
          ((turns.drop (turns.length - 6)).length - 6) =
            turns.drop (turns.length - 6) := by
        rw [List.length_drop]
        have h0 : turns.length - (turns.length - 6) - 6 = 0 := by omega
        rw [h0, List.drop_zero]
      unfold conversation_excerpt
      rw [if_neg h, if_neg hne]
      dsimp only
      rw [hsel]
  · intro hgt
    unfold conversation_excerpt
    split
    · rename_i h0
      exact absurd hgt (by subst h0; decide)
    · dsimp only
      split
      · rename_i hle
        exact absurd hgt (Nat.not_lt.mpr hle)
      · refine ⟨(pyRstrip (pyTake (pyStrip (String.intercalate "\n"
          (excerptLines (turns.drop (turns.length - 6))))) (1500 - 5))).data
            ++ ['\n'], ?_⟩
        have hsplit : ("\n[...]" : String).data = '\n' :: ("[...]" : String).data := rfl
        rw [data_append, hsplit]
        simp

/-- Claim C9 (witness) — on a transcript with a 1600-character answer the
excerpt is truncated and carries the marker. -/
theorem C9_conversation_excerpt_bounded_witness :
    (conversation_excerpt longAnswerTurns).length ≤ 1501 ∧
    "[...]".data <:+ (conversation_excerpt longAnswerTurns).data :=
  ⟨(C9_conversation_excerpt_bounded longAnswerTurns).1,
   (C9_conversation_excerpt_bounded longAnswerTurns).2.2 (by decide)⟩

/-- The relation `StepOK` is reflexive. -/
theorem stepOK_refl (maxQ : Nat) (s : SubjectState) : StepOK maxQ s s :=
  ⟨fun _ h => h, Nat.le_refl _,
   fun _ h1 h2 => absurd (Nat.lt_of_le_of_lt h1 h2) (Nat.lt_irrefl _),
   fun _ h => h⟩

/-- The relation `StepOK` composes. -/
theorem stepOK_trans {maxQ : Nat} {s t u : SubjectState}
    (h1 : StepOK maxQ s t) (h2 : StepOK maxQ t u) : StepOK maxQ s u := by
  obtain ⟨m1, l1, k1, c1⟩ := h1
  obtain ⟨m2, l2, k2, c2⟩ := h2
  refine ⟨fun i h => m2 i (m1 i h), Nat.le_trans l1 l2, ?_,
    fun i h => c2 i (c1 i h)⟩
  intro j hj1 hj2
  by_cases hj : j < t.current_subject_idx
  · exact m2 j (k1 j hj1 hj)
  · exact k2 j (Nat.le_of_not_lt hj) hj2

/-- The relation `StepOK` ignores the active-subject marker. -/
theorem stepOK_active_irrelevant {maxQ : Nat} {s t : SubjectState}
    (a : Option Nat) (h : StepOK maxQ s t) :
    StepOK maxQ s { t with active_subject_index := a } := by
  obtain ⟨m, l, k, c⟩ := h
  exact ⟨m, l, k, c⟩

/-- The `_advance_subject` scan never moves backwards. -/
theorem advanceFrom_le : ∀ (fuel : Nat) (completed : List Bool) (idx : Nat),
    idx ≤ advanceFrom fuel completed idx := by
  intro fuel
  induction fuel with
  | zero => intro completed idx; exact Nat.le_refl _
  | succ f ih =>
      intro completed idx
      unfold advanceFrom
      split
      · exact Nat.le_trans (Nat.le_succ idx) (ih completed (idx + 1))
      · exact Nat.le_refl _

/-- Every index the `_advance_subject` scan passes over is completed. -/
theorem advanceFrom_skipped :
    ∀ (fuel : Nat) (completed : List Bool) (idx j : Nat),
      idx ≤ j → j < advanceFrom fuel completed idx →
      completed.getD j false = true := by
  intro fuel
  induction fuel with
  | zero =>
      intro completed idx j h1 h2
      unfold advanceFrom at h2
      exact absurd (Nat.lt_of_le_of_lt h1 h2) (Nat.lt_irrefl _)
  | succ f ih =>
      intro completed idx j h1 h2
      unfold advanceFrom at h2
      split at h2
      · rename_i hcond
        simp only [Bool.and_eq_true, decide_eq_true_eq] at hcond
        rcases Nat.eq_or_lt_of_le h1 with heq | hlt
        · subst heq
          exact hcond.2
        · exact ih completed (idx + 1) j hlt h2
      · exact absurd (Nat.lt_of_le_of_lt h1 h2) (Nat.lt_irrefl _)

/-- Advancing (`_advance_subject`) is a correct step whenever the current subject is
already completed. -/
theorem advance_subject_stepOK (maxQ : Nat) (s : SubjectState)
    (hcur : completedAt s s.current_subject_idx = true) :
    StepOK maxQ s (advance_subject s) := by
  refine ⟨fun i h => h, ?_, ?_, fun i h => h⟩
  · exact Nat.le_trans (Nat.le_succ _) (advanceFrom_le _ _ _)
  · intro j hj1 hj2
    rcases Nat.eq_or_lt_of_le hj1 with heq | hlt
    · subst heq
      exact hcur
    · exact advanceFrom_skipped _ s.subjects_completed
        (s.current_subject_idx + 1) j hlt hj2

/-- Marking (`_mark_subject_complete`) is a correct, well-formedness-preserving step. -/
theorem mark_subject_complete_ok (maxQ : Nat) (s : SubjectState)
    (index : Nat) (hWF : WF s) :
    StepOK maxQ s (mark_subject_complete s index) ∧
    WF (mark_subject_complete s index) := by
  unfold mark_subject_complete
  split
  · exact ⟨stepOK_refl maxQ s, hWF⟩
  · rename_i hidx
    have hlt : index < s.subjects_completed.length := by
      unfold WF at hWF
      omega
    set completed' :=
      if s.subjects_completed.getD index false then s.subjects_completed
      else s.subjects_completed.set index true with hcdef
    have hF1 : ∀ i, s.subjects_completed.getD i false = true →
        completed'.getD i false = true := by
      intro i h
      rw [hcdef]
      split
      · exact h
      · by_cases hii : index = i
        · subst hii
          simp [List.getD, List.getElem?_set, hlt]
        · simpa [List.getD, List.getElem?_set, hii] using h
    have hF2 : completed'.getD index false = true := by
      rw [hcdef]
      split
      · assumption
      · simp [List.getD, List.getElem?_set, hlt]
    have hF3 : completed'.length = s.subjects_completed.length := by
      rw [hcdef]
      split
      · rfl
      · exact List.length_set ..
    have hs1 : StepOK maxQ s
        { s with subjects_completed := completed' } := by
      refine ⟨hF1, Nat.le_refl _, ?_, fun i h => h⟩
      intro j hj1 hj2
      exact absurd (Nat.lt_of_le_of_lt hj1 hj2) (Nat.lt_irrefl _)
    have hWF1 : WF { s with subjects_completed := completed' } := by
      unfold WF at hWF ⊢
      rw [hF3]
      exact hWF
    dsimp only
    split
    · rename_i hic
      refine ⟨stepOK_trans hs1 ?_, ?_⟩
      · exact advance_subject_stepOK maxQ _ (by subst hic; exact hF2)
      · exact hWF1
    · exact ⟨hs1, hWF1⟩

/-- The loop of `_generate_next_question` is a correct, well-formedness-preserving step. -/
theorem generateAux_ok (oracle : SubjectState → QuestionDecision)
    (maxQ : Nat) :
    ∀ (fuel : Nat) (s : SubjectState), WF s →
      StepOK maxQ s (generateAux oracle maxQ fuel s).2 ∧
      WF (generateAux oracle maxQ fuel s).2 := by
  intro fuel
  induction fuel with
  | zero => intro s hWF; exact ⟨stepOK_refl maxQ s, hWF⟩
  | succ f ih =>
      intro s hWF
      unfold generateAux
      dsimp only
      split
      · exact ⟨stepOK_refl maxQ s, hWF⟩
      · split
        · rename_i hcur
          have h1 := advance_subject_stepOK maxQ s hcur
          have h2 := ih (advance_subject s) hWF
          exact ⟨stepOK_trans h1 h2.1, h2.2⟩
        · split
          · have h1 := mark_subject_complete_ok maxQ s
              s.current_subject_idx hWF
            have h2 := ih (mark_current_subject_complete s) h1.2
            exact ⟨stepOK_trans h1.1 h2.1, h2.2⟩
          · split
            · have h1 := mark_subject_complete_ok maxQ s
                s.current_subject_idx hWF
              have h2 := ih (mark_current_subject_complete s) h1.2
              exact ⟨stepOK_trans h1.1 h2.1, h2.2⟩
            · split
              · have h1 := mark_subject_complete_ok maxQ s
                  s.current_subject_idx hWF
                have h2 := ih (mark_current_subject_complete s) h1.2
                exact ⟨stepOK_trans h1.1 h2.1, h2.2⟩
              · rename_i hcap _ _
                refine ⟨⟨fun i h => h, Nat.le_refl _, ?_, ?_⟩, hWF⟩
                · intro j hj1 hj2
                  exact absurd (Nat.lt_of_le_of_lt hj1 hj2) (Nat.lt_irrefl _)
                · intro i h
                  by_cases hii : s.current_subject_idx = i
                  · subst hii
                    have hc : countAt s s.current_subject_idx < maxQ :=
                      Nat.lt_of_not_le hcap
                    simp [countAt, List.getD, List.get?_eq_getElem?,
                      List.getElem?_set] at hc ⊢
                    split
                    · simp only [Option.getD_some]
                      omega
                    · simp
                  · simp only [countAt, List.getD, List.get?_eq_getElem?,
                      List.getElem?_set_ne hii] at h ⊢
                    exact h

/-- Answer handling (`_handle_post_answer`) is a correct, well-formedness-preserving step. -/
theorem handle_post_answer_ok (maxQ : Nat) (s : SubjectState)
    (hWF : WF s) :
    StepOK maxQ s (handle_post_answer maxQ s) ∧
    WF (handle_post_answer maxQ s) := by
  unfold handle_post_answer
  split
  · exact ⟨stepOK_refl maxQ s, hWF⟩
  · rename_i i _
    dsimp only
    split
    · have h1 := mark_subject_complete_ok maxQ s i hWF
      exact ⟨stepOK_active_irrelevant none h1.1, h1.2⟩
    · exact ⟨stepOK_active_irrelevant none (stepOK_refl maxQ s), hWF⟩

/-- Any public session operation is a correct,
well-formedness-preserving step. -/
theorem applyOp_ok (maxQ : Nat) (op : SessionOp) (s : SubjectState)
    (hWF : WF s) :
    StepOK maxQ s (applyOp maxQ op s) ∧ WF (applyOp maxQ op s) := by
  cases op with
  | ask oracle => exact generateAux_ok oracle maxQ _ s hWF
  | answer => exact handle_post_answer_ok maxQ s hWF

/-- The initial planner state is well-formed. -/
theorem initial_subject_state_WF : WF initialSubjectState := by
  simp [WF, initialSubjectState]

/-- All question counters start at the cap or below. -/
theorem initial_subject_state_counts (maxQ : Nat) :
    ∀ i, countAt initialSubjectState i ≤ maxQ := by
  intro i
  simp only [countAt, initialSubjectState, List.getD, List.get?_eq_getElem?,
    List.getElem?_replicate]
  split <;> simp

/-- Reachable states are well-formed with bounded counters. -/
theorem runOps_ok (maxQ : Nat) :
    ∀ (ops : List SessionOp) (s : SubjectState), WF s →
      (∀ i, countAt s i ≤ maxQ) →
      WF (runOps maxQ ops s) ∧
      (∀ i, countAt (runOps maxQ ops s) i ≤ maxQ) := by
  intro ops
  induction ops with
  | nil => intro s h1 h2; exact ⟨h1, h2⟩
  | cons op rest ih =>
      intro s h1 h2
      have h3 := applyOp_ok maxQ op s h1
      exact ih (applyOp maxQ op s) h3.2 (fun i => h3.1.2.2.2 i (h2 i))

/-- Claim C8 — over the whole session lifetime (any sequence of
question-generation and answer-processing operations from the initial
state), completion flags never transition true→false, the current
subject index is non-decreasing and skips only subjects that end up
completed, and no per-subject question counter ever exceeds the
configured cap. -/
theorem C8_subject_plan_monotonicity (maxQ : Nat) (ops : List SessionOp)
    (op : SessionOp) :
    (∀ i, completedAt (runOps maxQ ops initialSubjectState) i = true →
      completedAt (applyOp maxQ op (runOps maxQ ops initialSubjectState)) i
        = true) ∧
    (runOps maxQ ops initialSubjectState).current_subject_idx ≤
      (applyOp maxQ op (runOps maxQ ops initialSubjectState)).current_subject_idx ∧
    (∀ j, (runOps maxQ ops initialSubjectState).current_subject_idx ≤ j →
      j < (applyOp maxQ op (runOps maxQ ops initialSubjectState)).current_subject_idx →
      completedAt (applyOp maxQ op (runOps maxQ ops initialSubjectState)) j
        = true) ∧
    (∀ i, countAt (applyOp maxQ op (runOps maxQ ops initialSubjectState)) i
      ≤ maxQ) := by
  have hrun := runOps_ok maxQ ops initialSubjectState
    initial_subject_state_WF (initial_subject_state_counts maxQ)
  have hstep := applyOp_ok maxQ op _ hrun.1
  exact ⟨hstep.1.1, hstep.1.2.1, hstep.1.2.2.1,
    fun i => hstep.1.2.2.2 i (hrun.2 i)⟩

/-- Claim C8 (witness) — the monotonicity theorem at a concrete session
step. -/
theorem C8_subject_plan_monotonicity_witness :
    (∀ i, completedAt (runOps 2 [] initialSubjectState) i = true →
      completedAt (applyOp 2 .answer (runOps 2 [] initialSubjectState)) i
        = true) ∧
    (runOps 2 [] initialSubjectState).current_subject_idx ≤
      (applyOp 2 .answer (runOps 2 [] initialSubjectState)).current_subject_idx ∧
    (∀ j, (runOps 2 [] initialSubjectState).current_subject_idx ≤ j →
      j < (applyOp 2 .answer (runOps 2 [] initialSubjectState)).current_subject_idx →
      completedAt (applyOp 2 .answer (runOps 2 [] initialSubjectState)) j
        = true) ∧
    (∀ i, countAt (applyOp 2 .answer (runOps 2 [] initialSubjectState)) i
      ≤ 2) :=
  C8_subject_plan_monotonicity 2 [] .answer

/-- A serialized JSON string is at least its two quotes long. -/
theorem jsonStr_length_ge_two (s : String) : 2 ≤ (jsonStr s).length := by
  show 2 ≤ (quoteChar :: (s.data.flatMap jsonEscapeChar) ++ [quoteChar]).length
  simp [List.length_append]

/-- Membership after an `insertUniqueSorted`. -/
theorem mem_of_mem_insertUniqueSorted {a x : String} :
    ∀ l : List String, a ∈ insertUniqueSorted x l → a = x ∨ a ∈ l := by
  intro l
  induction l with
  | nil =>
      intro h
      simp [insertUniqueSorted] at h
      exact Or.inl h
  | cons y ys ih =>
      intro h
      unfold insertUniqueSorted at h
      split at h
      · exact Or.inr h
      · split at h
        · rcases List.mem_cons.mp h with h1 | h1
          · exact Or.inl h1
          · exact Or.inr h1
        · rcases List.mem_cons.mp h with h1 | h1
          · exact Or.inr (by simp [h1])
          · rcases ih h1 with h2 | h2
            · exact Or.inl h2
            · exact Or.inr (List.mem_cons_of_mem y h2)

/-- Python `sorted(set(l))` introduces no new elements. -/
theorem mem_of_mem_sortedDedup {a : String} :
    ∀ l : List String, a ∈ sortedDedup l → a ∈ l := by
  intro l
  induction l with
  | nil => intro h; exact absurd h (List.not_mem_nil a)
  | cons y ys ih =>
      intro h
      rcases mem_of_mem_insertUniqueSorted (sortedDedup ys) h with h1 | h1
      · simp [h1]
      · exact List.mem_cons_of_mem y (ih h1)

/-- The function `insertUniqueSorted` never yields the empty list. -/
theorem insertUniqueSorted_ne_nil (x : String) :
    ∀ l : List String, insertUniqueSorted x l ≠ [] := by
  intro l
  cases l with
  | nil => simp [insertUniqueSorted]
  | cons y ys =>
      unfold insertUniqueSorted
      split
      · simp
      · split
        · simp
        · simp

/-- Inserting a fresh string strictly lengthens the comma-joined
serialization. -/
theorem joinCommaSep_insert_length (x : String) :
    ∀ l : List String, x ∉ l →
      (joinCommaSep (l.map jsonStr)).length <
        (joinCommaSep ((insertUniqueSorted x l).map jsonStr)).length := by
  intro l
  induction l with
  | nil =>
      intro _
      show ("" : String).length < (jsonStr x).length
      have h2 := jsonStr_length_ge_two x
      have h0 : ("" : String).length = 0 := rfl
      omega
  | cons y ys ih =>
      intro hx
      have hxy : x ≠ y := fun h => hx (by simp [h])
      have hxys : x ∉ ys := fun h => hx (List.mem_cons_of_mem y h)
      unfold insertUniqueSorted
      rw [if_neg hxy]
      split
      · show (joinCommaSep (jsonStr y :: ys.map jsonStr)).length <
          (joinCommaSep (jsonStr x :: jsonStr y :: ys.map jsonStr)).length
        have hj : joinCommaSep (jsonStr x :: jsonStr y :: ys.map jsonStr) =
            jsonStr x ++ ", " ++ joinCommaSep (jsonStr y :: ys.map jsonStr)
          := rfl
        rw [hj, String.length_append, String.length_append]
        have h2 := jsonStr_length_ge_two x
        have hsep : (", " : String).length = 2 := rfl
        omega
      · cases ys with
        | nil =>
            show (joinCommaSep [jsonStr y]).length <
              (joinCommaSep [jsonStr y, jsonStr x]).length
            have hj1 : joinCommaSep [jsonStr y] = jsonStr y := rfl
            have hj2 : joinCommaSep [jsonStr y, jsonStr x] =
                jsonStr y ++ ", " ++ jsonStr x := rfl
            rw [hj1, hj2, String.length_append, String.length_append]
            have h2 := jsonStr_length_ge_two x
            have hsep : (", " : String).length = 2 := rfl
            omega
        | cons z zs =>
            obtain ⟨w, ws, hw⟩ :=
              List.exists_cons_of_ne_nil (insertUniqueSorted_ne_nil x (z :: zs))
            have hIH := ih hxys
            rw [hw] at hIH ⊢
            show (joinCommaSep (jsonStr y :: (z :: zs).map jsonStr)).length <
              (joinCommaSep (jsonStr y :: (w :: ws).map jsonStr)).length
            have hj1 : joinCommaSep (jsonStr y :: (z :: zs).map jsonStr) =
                jsonStr y ++ ", " ++ joinCommaSep ((z :: zs).map jsonStr) := rfl
            have hj2 : joinCommaSep (jsonStr y :: (w :: ws).map jsonStr) =
                jsonStr y ++ ", " ++ joinCommaSep ((w :: ws).map jsonStr) := rfl
            rw [hj1, hj2, String.length_append, String.length_append,
              String.length_append, String.length_append]
            omega

/-- Prepending a fresh subject strictly lengthens the serialized
`sorted(set(missing_subjects))` list. -/
theorem jsonStrList_sortedDedup_cons_length (x : String) (m : List String)
    (hx : x ∉ m) :
    (jsonStrList (sortedDedup m)).length <
      (jsonStrList (sortedDedup (x :: m))).length := by
  have hx' : x ∉ sortedDedup m := fun h => hx (mem_of_mem_sortedDedup m h)
  have hkey := joinCommaSep_insert_length x (sortedDedup m) hx'
  show ("[" ++ joinCommaSep ((sortedDedup m).map jsonStr) ++ "]").length <
    ("[" ++ joinCommaSep ((insertUniqueSorted x (sortedDedup m)).map jsonStr)
      ++ "]").length
  rw [String.length_append, String.length_append, String.length_append,
    String.length_append]
  omega

/-- Claim C4 (counterexample) — the claim as stated fails: adding one
(duplicate) entry to `missing_subjects` changes the field but not the
fingerprint, and the `language` field is not serialized at all. -/
theorem C4_counterexample :
    sampleReviewDup.missing_subjects ≠ sampleReview.missing_subjects ∧
    sampleReviewDup.fingerprint = sampleReview.fingerprint ∧
    sampleReviewEs.language ≠ sampleReview.language ∧
    sampleReviewEs.fingerprint = sampleReview.fingerprint := by decide

/-- Claim C4 (amended) — `fingerprint()` is a deterministic serialization
of the review's content: two reviews agreeing on all serialized fields
(everything except `language`, with `missing_subjects` taken up to its
sorted deduplicated form) have identical fingerprints, and adding one
entry *not already present* to `missing_subjects` always changes the
fingerprint (duplicate entries and `language` changes do not, as the
counterexample shows). -/
theorem C4_fingerprint_characterization :
    (∀ r s : SpecificationReview,
      r.all_subjects_present = s.all_subjects_present →
      sortedDedup r.missing_subjects = sortedDedup s.missing_subjects →
      r.table_valid = s.table_valid →
      r.table_feedback = s.table_feedback →
      r.follow_up_questions = s.follow_up_questions →
      r.feedback_for_interviewer = s.feedback_for_interviewer →
      r.fingerprint = s.fingerprint) ∧
    (∀ (r : SpecificationReview) (x : String),
      x ∉ r.missing_subjects →
      SpecificationReview.fingerprint
        { r with missing_subjects := x :: r.missing_subjects } ≠
        r.fingerprint) := by
  constructor
  · intro r s h1 h2 h3 h4 h5 h6
    unfold SpecificationReview.fingerprint
    rw [h1, h2, h3, h4, h5, h6]
  · intro r x hx heq
    have hlen := congrArg String.length heq
    simp only [SpecificationReview.fingerprint, String.length_append] at hlen
    have hkey := jsonStrList_sortedDedup_cons_length x r.missing_subjects hx
    omega

/-- Claim C4 (witness) — prepending the fresh subject
`"Scope In and Out"` to `sampleReview`'s missing subjects changes its
fingerprint. -/
theorem C4_fingerprint_characterization_witness :
    SpecificationReview.fingerprint
      { sampleReview with
          missing_subjects := "Scope In and Out" :: sampleReview.missing_subjects }
      ≠ sampleReview.fingerprint :=
  C4_fingerprint_characterization.2 sampleReview "Scope In and Out" (by decide)

end BA
